import Mathlib

/-!
Verification development for the MemoRable MCP Python client
(`src/clients/python/memorable_client.py`).

The client's transport and session layer is embedded shallowly:
JSON values become an inductive type, `json.loads` becomes a small
executable recursive-descent parser, the mutable client object becomes
explicit state passing, and the network is an explicit input (an
`Option HttpResponse`, `none` standing for a transport-level failure).
Raised Python exceptions become `Except` error values.

Scope notes on the embedding, stated once here:
* JSON numbers are modelled as integers; fractional literals are outside
  the modelled scope (no claim involves them) and make the parser fail.
* Python dict membership and indexing are modelled with their real dynamic
  semantics (`in` on a non-container raises `TypeError`, attribute access
  on a non-dict raises `AttributeError`), since the source applies them to
  values of unknown shape.
-/

/-- A JSON value, as produced by `json.loads`.  Python `None` and JSON
`null` are the same object in Python, so one constructor covers both. -/
inductive Json where
  | null : Json
  | bool (b : Bool) : Json
  | num (n : Int) : Json
  | str (s : String) : Json
  | arr (xs : List Json) : Json
  | obj (kvs : List (String × Json)) : Json

/-- Structural equality on JSON values (Python `==` restricted to the
comparisons the client actually performs, which are all against scalars). -/
def Json.beq : Json → Json → Bool
  | .null, .null => true
  | .bool a, .bool b => a == b
  | .num a, .num b => a == b
  | .str a, .str b => a == b
  | .arr [], .arr [] => true
  | .arr (x :: xs), .arr (y :: ys) => Json.beq x y && Json.beq (.arr xs) (.arr ys)
  | .obj [], .obj [] => true
  | .obj ((k, v) :: kvs), .obj ((k', v') :: kvs') =>
      k == k' && Json.beq v v' && Json.beq (.obj kvs) (.obj kvs')
  | _, _ => false

instance : BEq Json := ⟨Json.beq⟩

/-- Python truthiness (`if result:`) for JSON values: `None`, `False`,
`0`, `""`, `[]` and `{}` are falsy. -/
def pyTruthy : Json → Bool
  | .null => false
  | .bool b => b
  | .num n => n != 0
  | .str s => s != ""
  | .arr xs => !xs.isEmpty
  | .obj kvs => !kvs.isEmpty

/-- Python exception kinds raised by the modelled code paths. -/
inductive PyErr where
  | typeError
  | attrError
  | keyError
  | valueError
  | jsonDecodeError
  | contentTypeError
deriving DecidableEq, Repr

/-- Python `key in data` where `data` is an arbitrary decoded JSON value:
key membership on dicts, element equality on lists, substring test on
strings, `TypeError` on non-containers. -/
def pyContains (j : Json) (k : String) : Except PyErr Bool :=
  match j with
  | .obj kvs => .ok (kvs.lookup k).isSome
  | .arr xs => .ok (xs.any (fun x => x == Json.str k))
  | .str s => .ok (strContainsSub s k)
  | _ => .error .typeError
where
  /-- Substring test (Python `k in s` for strings). -/
  strContainsSub (s pat : String) : Bool := go s.data pat.data
  /-- Scan for `pat` as a prefix of any suffix of the character list. -/
  go : List Char → List Char → Bool
    | [], pat => pat.isEmpty
    | l@(_ :: t), pat => pat.isPrefixOf l || go t pat

/-- Substring test on strings, used for content-type dispatch
(`"text/event-stream" in content_type`). -/
def strContains (s pat : String) : Bool :=
  pyContains.strContainsSub s pat

/-- Python `line.startswith(pre)`. -/
def pyStartsWith (s pre : String) : Bool :=
  pre.data.isPrefixOf s.data

/-- Python `line[n:]`. -/
def pyDrop (s : String) (n : Nat) : String :=
  ⟨s.data.drop n⟩

/-- Python `s.endswith(pat)` (used for aiohttp's `*+json` content types). -/
def pyEndsWith (s pat : String) : Bool :=
  pat.data.isSuffixOf s.data

/-- Split a character list at every newline (Python `body.split("\n")`:
empty pieces are kept, including a trailing one). -/
def splitNlChars : List Char → List (List Char)
  | [] => [[]]
  | '\n' :: cs => [] :: splitNlChars cs
  | c :: cs =>
      match splitNlChars cs with
      | [] => [[c]]
      | l :: ls => (c :: l) :: ls

/-- Python `body.split("\n")`. -/
def pySplitNl (s : String) : List String :=
  (splitNlChars s.data).map (fun l => ⟨l⟩)

/-- Python `data[key]` on a decoded JSON value: dict lookup (`KeyError`
when absent), `TypeError` on every non-dict. -/
def pyIndex (j : Json) (k : String) : Except PyErr Json :=
  match j with
  | .obj kvs =>
      match kvs.lookup k with
      | some v => .ok v
      | none => .error .keyError
  | _ => .error .typeError

/-- Python `data.get(key, default)` on a dict. -/
def pyGetD (kvs : List (String × Json)) (k : String) (d : Json) : Json :=
  (kvs.lookup k).getD d

/-! ## A model of `json.loads`

A fuel-indexed recursive-descent parser for the JSON fragment the client
exchanges: null / booleans / integral numbers / strings (with the common
escapes) / arrays / objects.  `json_loads` returns `none` exactly where
`json.loads` would raise `json.JSONDecodeError` (on the modelled fragment).
-/

/-- Skip JSON whitespace. -/
def jsonSkipWs : List Char → List Char
  | c :: cs =>
      if c = ' ' || c = '\t' || c = '\n' || c = '\r' then jsonSkipWs cs else c :: cs
  | [] => []

/-- Decode one hex digit. -/
def hexDigit? (c : Char) : Option Nat :=
  if '0' ≤ c ∧ c ≤ '9' then some (c.toNat - '0'.toNat)
  else if 'a' ≤ c ∧ c ≤ 'f' then some (c.toNat - 'a'.toNat + 10)
  else if 'A' ≤ c ∧ c ≤ 'F' then some (c.toNat - 'A'.toNat + 10)
  else none

/-- Parse the body of a JSON string literal (after the opening quote).
Handles the standard single-character escapes and `\uXXXX` (surrogate
pairs are out of modelled scope). -/
def parseJsonString : List Char → Option (String × List Char)
  | [] => none
  | '"' :: rest => some ("", rest)
  | '\\' :: 'u' :: h1 :: h2 :: h3 :: h4 :: rest => do
      let a ← hexDigit? h1
      let b ← hexDigit? h2
      let c ← hexDigit? h3
      let d ← hexDigit? h4
      let (s, r) ← parseJsonString rest
      let code := ((a * 16 + b) * 16 + c) * 16 + d
      return (⟨Char.ofNat code :: s.data⟩, r)
  | '\\' :: e :: rest => do
      let c ← match e with
        | '"' => some '"'
        | '\\' => some '\\'
        | '/' => some '/'
        | 'b' => some (Char.ofNat 8)
        | 'f' => some (Char.ofNat 12)
        | 'n' => some '\n'
        | 'r' => some '\r'
        | 't' => some '\t'
        | _ => none
      let (s, r) ← parseJsonString rest
      return (⟨c :: s.data⟩, r)
  | c :: rest => do
      let (s, r) ← parseJsonString rest
      return (⟨c :: s.data⟩, r)

/-- Parse a run of decimal digits (at least one). -/
def parseDigits : List Char → Option (List Char × List Char)
  | [] => none
  | c :: cs =>
      if c.isDigit then
        match parseDigits cs with
        | some (ds, rest) => some (c :: ds, rest)
        | none => some ([c], cs)
      else none

/-- Digits to a natural number. -/
def digitsToNat (ds : List Char) : Nat :=
  ds.foldl (fun acc c => acc * 10 + (c.toNat - '0'.toNat)) 0

/-- Reject a leading zero followed by more digits (`json.loads "042"`
raises), then build the number. -/
def finishNum (ds : List Char) (rest : List Char) (neg : Bool) :
    Option (Json × List Char) :=
  match ds with
  | '0' :: _ :: _ => none
  | _ =>
      match rest with
      | '.' :: _ => none
      | 'e' :: _ => none
      | 'E' :: _ => none
      | _ =>
          let n : Int := Int.ofNat (digitsToNat ds)
          some (.num (if neg then -n else n), rest)

mutual

/-- Parse one JSON value.  `fuel` bounds recursion depth and the number of
sequence elements; `json_loads` supplies more than enough. -/
def parseJsonVal : Nat → List Char → Option (Json × List Char)
  | 0, _ => none
  | fuel + 1, cs =>
      match jsonSkipWs cs with
      | 'n' :: 'u' :: 'l' :: 'l' :: rest => some (.null, rest)
      | 't' :: 'r' :: 'u' :: 'e' :: rest => some (.bool true, rest)
      | 'f' :: 'a' :: 'l' :: 's' :: 'e' :: rest => some (.bool false, rest)
      | '"' :: rest =>
          match parseJsonString rest with
          | some (s, r) => some (.str s, r)
          | none => none
      | '[' :: rest =>
          (match jsonSkipWs rest with
           | ']' :: r => some (.arr [], r)
           | other =>
               match parseJsonElems fuel other with
               | some (xs, r) => some (.arr xs, r)
               | none => none)
      | '\x7b' :: rest =>
          (match jsonSkipWs rest with
           | '\x7d' :: r => some (.obj [], r)
           | other =>
               match parseJsonMembers fuel other with
               | some (kvs, r) => some (.obj kvs, r)
               | none => none)
      | '-' :: rest =>
          (match parseDigits rest with
           | some (ds, r) => finishNum ds r true
           | none => none)
      | c :: rest =>
          if c.isDigit then
            match parseDigits (c :: rest) with
            | some (ds, r) => finishNum ds r false
            | none => none
          else none
      | [] => none

/-- One-or-more comma-separated array elements, then `]`. -/
def parseJsonElems : Nat → List Char → Option (List Json × List Char)
  | 0, _ => none
  | fuel + 1, cs => do
      let (v, rest) ← parseJsonVal fuel cs
      match jsonSkipWs rest with
      | ',' :: r =>
          match parseJsonElems fuel r with
          | some (xs, rr) => some (v :: xs, rr)
          | none => none
      | ']' :: r => some ([v], r)
      | _ => none

/-- One-or-more comma-separated object members, then `}`.  Duplicate keys
resolve last-value-wins, as in Python dict construction. -/
def parseJsonMembers : Nat → List Char → Option (List (String × Json) × List Char)
  | 0, _ => none
  | fuel + 1, cs =>
      match jsonSkipWs cs with
      | '"' :: ks => do
          let (k, rest) ← parseJsonString ks
          match jsonSkipWs rest with
          | ':' :: r => do
              let (v, rest2) ← parseJsonVal fuel r
              match jsonSkipWs rest2 with
              | ',' :: r2 =>
                  match parseJsonMembers fuel r2 with
                  | some (kvs, rr) =>
                      some ((k, v) :: kvs.filter (fun p => !(p.1 == k)) , rr)
                  | none => none
              | '\x7d' :: r2 => some ([(k, v)], r2)
              | _ => none
          | _ => none
      | _ => none

end

/-- Model of `json.loads`: parse one document, allow trailing whitespace
only. -/
def json_loads (s : String) : Option Json :=
  match parseJsonVal (s.data.length + 1) s.data with
  | some (v, rest) => if (jsonSkipWs rest).isEmpty then some v else none
  | none => none

/-! ## A model of `datetime`

`Memory.from_dict` parses timestamps with
`datetime.fromisoformat(ts.replace("Z", "+00:00"))` and defaults to
`datetime.now().isoformat()`.  The embedding models a datetime as its
components plus an optional UTC offset (in minutes); `fromisoformat`
covers the formats the client exchanges:
`YYYY-MM-DD[<sep>HH:MM[:SS[.ffffff]]][+HH:MM|-HH:MM]`.
Month lengths are not validated beyond `day ≤ 31` (no claim involves an
invalid calendar date). -/

structure PyDateTime where
  year : Nat
  month : Nat
  day : Nat
  hour : Nat
  minute : Nat
  second : Nat
  microsecond : Nat
  /-- `none` for a naive datetime (as produced by `datetime.now()`). -/
  utcOffsetMinutes : Option Int
deriving DecidableEq, Repr

/-- Parse exactly two digits. -/
def twoDigits : List Char → Option (Nat × List Char)
  | a :: b :: rest =>
      if a.isDigit && b.isDigit then
        some ((a.toNat - '0'.toNat) * 10 + (b.toNat - '0'.toNat), rest)
      else none
  | _ => none

/-- Parse exactly four digits. -/
def fourDigits : List Char → Option (Nat × List Char)
  | a :: b :: c :: d :: rest =>
      if a.isDigit && b.isDigit && c.isDigit && d.isDigit then
        some ((((a.toNat - '0'.toNat) * 10 + (b.toNat - '0'.toNat)) * 10
          + (c.toNat - '0'.toNat)) * 10 + (d.toNat - '0'.toNat), rest)
      else none
  | _ => none

/-- Parse a fractional-second field of one to six digits, scaled to
microseconds. -/
def parseFraction (cs : List Char) : Option (Nat × List Char) :=
  match parseDigits cs with
  | some (ds, rest) =>
      if ds.length ≤ 6 then
        some (digitsToNat ds * 10 ^ (6 - ds.length), rest)
      else none
  | none => none

/-- Parse the optional time-of-day tail (everything after the date and
the separator character). -/
def parseTimeTail (cs : List Char) : Option (Nat × Nat × Nat × Nat × List Char) := do
  let (h, cs) ← twoDigits cs
  match cs with
  | ':' :: cs => do
      let (mi, cs) ← twoDigits cs
      match cs with
      | ':' :: cs => do
          let (s, cs) ← twoDigits cs
          match cs with
          | '.' :: cs => do
              let (us, cs) ← parseFraction cs
              return (h, mi, s, us, cs)
          | _ => return (h, mi, s, 0, cs)
      | _ => return (h, mi, 0, 0, cs)
  | _ => none

/-- Parse the optional UTC-offset tail `+HH:MM` / `-HH:MM`. -/
def parseOffsetTail (cs : List Char) : Option (Option Int × List Char) :=
  match cs with
  | [] => some (none, [])
  | '+' :: rest => parseSigned 1 rest
  | '-' :: rest => parseSigned (-1) rest
  | _ => none
where
  parseSigned (sign : Int) (cs : List Char) : Option (Option Int × List Char) := do
    let (oh, cs) ← twoDigits cs
    match cs with
    | ':' :: cs => do
        let (om, cs) ← twoDigits cs
        if oh < 24 ∧ om < 60 then
          return (some (sign * (Int.ofNat (oh * 60 + om))), cs)
        else none
    | _ => none

/-- Model of `datetime.fromisoformat` on the exchanged formats; `none`
where Python raises `ValueError`. -/
def fromisoformat (s : String) : Option PyDateTime := do
  let cs := s.data
  let (y, cs) ← fourDigits cs
  match cs with
  | '-' :: cs =>
      let (mo, cs) ← twoDigits cs
      match cs with
      | '-' :: cs =>
          let (d, cs) ← twoDigits cs
          let core ←
            match cs with
            | [] => some (PyDateTime.mk y mo d 0 0 0 0 none, ([] : List Char))
            | _sep :: cs => do
                let (h, mi, sec, us, cs) ← parseTimeTail cs
                let (off, cs) ← parseOffsetTail cs
                some (PyDateTime.mk y mo d h mi sec us off, cs)
          let (t, rest) := core
          if rest.isEmpty ∧ 1 ≤ y ∧ 1 ≤ t.month ∧ t.month ≤ 12 ∧ 1 ≤ t.day ∧
              t.day ≤ 31 ∧ t.hour < 24 ∧ t.minute < 60 ∧ t.second < 60 then
            some t
          else none
      | _ => none
  | _ => none

/-- Left-pad a numeral with zeros to width `w`. -/
def padNum (w n : Nat) : String :=
  let s := toString n
  ⟨List.replicate (w - s.length) '0' ++ s.data⟩

/-- Model of `datetime.isoformat`: `YYYY-MM-DDTHH:MM:SS`, with
`.ffffff` when the microsecond field is nonzero and `±HH:MM` when an
offset is present. -/
def PyDateTime.isoformat (t : PyDateTime) : String :=
  padNum 4 t.year ++ "-" ++ padNum 2 t.month ++ "-" ++ padNum 2 t.day ++ "T"
    ++ padNum 2 t.hour ++ ":" ++ padNum 2 t.minute ++ ":" ++ padNum 2 t.second
    ++ (if t.microsecond = 0 then "" else "." ++ padNum 6 t.microsecond)
    ++ (match t.utcOffsetMinutes with
        | none => ""
        | some off =>
            let sign := if off < 0 then "-" else "+"
            let a := off.natAbs
            sign ++ padNum 2 (a / 60) ++ ":" ++ padNum 2 (a % 60))

/-- Model of Python `s.replace("Z", "+00:00")`: the pattern is a single
character, so the replacement substitutes every occurrence of `'Z'`. -/
def replaceZ : List Char → List Char
  | [] => []
  | c :: cs =>
      if c = 'Z' then '+' :: '0' :: '0' :: ':' :: '0' :: '0' :: replaceZ cs
      else c :: replaceZ cs

/-- The timestamp normalization applied by `Memory.from_dict`:
`datetime.fromisoformat(ts.replace("Z", "+00:00"))`. -/
def parse_ts (s : String) : Option PyDateTime :=
  fromisoformat ⟨replaceZ s.data⟩

/-- The timestamp field of a normalized `Memory`: a parsed datetime when
the raw field was a string, otherwise the raw value passed through
(`isinstance(ts, str)` gate in the source). -/
inductive TsVal where
  | dt (t : PyDateTime) : TsVal
  | raw (j : Json) : TsVal

/-- The `Memory` dataclass.  Field values keep their decoded JSON shape,
as the Python dataclass performs no coercion. -/
structure Memory where
  id : Json
  content : Json
  salience : Json
  timestamp : TsVal
  entity : Json
  context : Json

/-- Model of `Memory.from_dict`, with the wall clock passed explicitly: `now`
stands for `datetime.now()`, whose `isoformat` string is the default
when neither `timestamp` nor `createdAt` is present.  A string timestamp
that `fromisoformat` rejects raises `ValueError` in Python, hence
`Except`. -/
def Memory.from_dict (now : PyDateTime) (data : List (String × Json)) :
    Except PyErr Memory :=
  let ts : Json :=
    pyGetD data "timestamp" (pyGetD data "createdAt" (.str now.isoformat))
  let tsv : Except PyErr TsVal :=
    match ts with
    | .str s =>
        match parse_ts s with
        | some t => .ok (.dt t)
        | none => .error .valueError
    | j => .ok (.raw j)
  match tsv with
  | .error e => .error e
  | .ok tv =>
      .ok {
        id := pyGetD data "_id" (pyGetD data "id" (pyGetD data "memoryId" (.str ""))),
        content := pyGetD data "content" (pyGetD data "text" (.str "")),
        salience := pyGetD data "salience"
          (pyGetD data "salience_score" (pyGetD data "salienceScore" (.num 50))),
        timestamp := tv,
        entity := pyGetD data "entity" .null,
        context := pyGetD data "context" (.obj []) }

/-! ## The MCP client

`MemoRableClient` carries the constructor configuration and the mutable
session state (`_mcp_session_id`, `_request_id`, `_initialized`).  The
aiohttp connection object holds no data the claims mention and is left
out of the state.  Each HTTP exchange is an explicit input: `none` models
a raised network error, `some r` a delivered response. -/

/-- A delivered HTTP response: the `Mcp-Session-Id` response header (if
any), the status code, the parsed content type, and the body text. -/
structure HttpResponse where
  sessionIdHeader : Option String
  status : Nat
  contentType : String
  body : String

/-- What one call to `_mcp_request` put on the wire: the JSON-RPC payload
fields plus the `Mcp-Session-Id` request header, if attached. -/
structure SentRequest where
  method : String
  id : Option Nat
  params : Option Json
  sessionHeader : Option String

/-- Errors a transport call can surface: a remote JSON-RPC `error`
payload re-raised as `Exception(f"MCP error: {...}")`, an uncaught Python
exception, or a network-level failure from aiohttp. -/
inductive RpcErr where
  | mcpError (payload : Json) : RpcErr
  | py (e : PyErr) : RpcErr
  | netError : RpcErr

/-- State set up by `MemoRableClient.__init__`. -/
structure MemoRableClient where
  mcp_url : String
  entity : String
  device_id : String
  device_type : String
  mcpSessionId : Option String
  requestId : Nat
  initialized : Bool

/-- Constructor call `MemoRableClient(mcp_url, entity, device_id, device_type)`. -/
def mkMemoRableClient (mcp_url entity device_id device_type : String) :
    MemoRableClient :=
  { mcp_url, entity, device_id, device_type,
    mcpSessionId := none, requestId := 0, initialized := false }

/-- Model of `_next_id`: increment the counter, return its new value. -/
def MemoRableClient.next_id (c : MemoRableClient) : MemoRableClient × Nat :=
  ({ c with requestId := c.requestId + 1 }, c.requestId + 1)

/-- The `result`/`error` extraction both decoding branches share:
`if "result" in data: return data["result"]`, then
`if "error" in data: raise Exception(f"MCP error: {data['error']}")`,
then the branch-specific fallback (scan on, or return the document). -/
def extract_doc (data : Json) (fallback : Except RpcErr Json) :
    Except RpcErr Json :=
  match pyContains data "result" with
  | .error e => .error (.py e)
  | .ok true =>
      match pyIndex data "result" with
      | .ok v => .ok v
      | .error e => .error (.py e)
  | .ok false =>
      match pyContains data "error" with
      | .error e => .error (.py e)
      | .ok true =>
          match pyIndex data "error" with
          | .ok e => .error (.mcpError e)
          | .error e => .error (.py e)
      | .ok false => fallback

/-- The SSE scanning loop of `_mcp_request`: for each line of the body,
lines starting with `"data: "` are JSON-parsed; a `result` key returns
its value, an `error` key raises, anything else moves to the next line;
an exhausted body returns `None`. -/
def sse_scan : List String → Except RpcErr Json
  | [] => .ok .null
  | line :: rest =>
      if pyStartsWith line "data: " then
        match json_loads (pyDrop line 6) with
        | none => .error (.py .jsonDecodeError)
        | some data => extract_doc data (sse_scan rest)
      else sse_scan rest

/-- aiohttp's `resp.json()` content-type guard (it raises
`ContentTypeError` unless the content type is a JSON one). -/
def isJsonContentType (ct : String) : Bool :=
  ct == "application/json" || pyEndsWith ct "+json"

/-- The body-decoding tail of `_mcp_request` for a non-notification,
non-202/204 response: SSE branch when the content type contains
`text/event-stream`, otherwise `resp.json()` with `result`/`error`
extraction and the raw document as fallback. -/
def decode_body (r : HttpResponse) : Except RpcErr Json :=
  if strContains r.contentType "text/event-stream" then
    sse_scan (pySplitNl r.body)
  else if isJsonContentType r.contentType then
    match json_loads r.body with
    | none => .error (.py .jsonDecodeError)
    | some data => extract_doc data (.ok data)
  else .error (.py .contentTypeError)

/-- Model of `_mcp_request`: allocate an id unless a notification, attach the
session header when the stored id is truthy, send, capture a truthy
`Mcp-Session-Id` response header into the state, then decode per status
and content type.  Returns the new state, the request that was sent, and
the outcome. -/
def MemoRableClient.mcp_request (c : MemoRableClient) (method : String)
    (params : Option Json) (is_notif : Bool) (tr : Option HttpResponse) :
    MemoRableClient × SentRequest × Except RpcErr Json :=
  let (c1, idOpt) :=
    if is_notif then (c, none)
    else
      let (c', i) := c.next_id
      (c', some i)
  let req : SentRequest :=
    { method, id := idOpt, params,
      sessionHeader :=
        match c.mcpSessionId with
        | some s => if s ≠ "" then some s else none
        | none => none }
  match tr with
  | none => (c1, req, .error .netError)
  | some r =>
      let c2 :=
        match r.sessionIdHeader with
        | some sid => if sid ≠ "" then { c1 with mcpSessionId := some sid } else c1
        | none => c1
      if is_notif || r.status == 202 || r.status == 204 then
        (c2, req, .ok .null)
      else
        (c2, req, decode_body r)

/-- The `params` object `connect` sends with `initialize`. -/
def initializeParams (entity : String) : Json :=
  .obj [("protocolVersion", .str "2025-03-26"),
        ("capabilities", .obj []),
        ("clientInfo", .obj [("name", .str ("memorable-" ++ entity)),
                             ("version", .str "1.0.0")])]

/-- Model of `connect`: send `initialize`; on success set `_initialized = True`
and send the `notifications/initialized` notification; any exception is
swallowed into a `False` return.  `t1`/`t2` are the transports of the
two exchanges. -/
def MemoRableClient.connect (c : MemoRableClient)
    (t1 t2 : Option HttpResponse) :
    MemoRableClient × List SentRequest × Bool :=
  let s1 := c.mcp_request "initialize" (some (initializeParams c.entity)) false t1
  match s1.2.2 with
  | .error _ => (s1.1, [s1.2.1], false)
  | .ok _ =>
      let c2 := { s1.1 with initialized := true }
      let s2 := c2.mcp_request "notifications/initialized" none true t2
      match s2.2.2 with
      | .error _ => (s2.1, [s1.2.1, s2.2.1], false)
      | .ok _ => (s2.1, [s1.2.1, s2.2.1], true)

/-- The `params` object `_call_tool` sends with `tools/call`. -/
def toolCallParams (tool : String) (args : Json) : Json :=
  .obj [("name", .str tool), ("arguments", args)]

/-- The content-block unwrap at the tail of `_call_tool`: a truthy dict
result whose `content` is a nonempty list yields its first block's
`text` field, JSON-parsed when possible and kept as-is otherwise
(`except (json.JSONDecodeError, TypeError)`); a first block that is not
a dict raises `AttributeError`; every other result is returned
unchanged. -/
def unwrap_result (result : Json) : Except RpcErr Json :=
  if pyTruthy result then
    match result with
    | .obj kvs =>
        match pyGetD kvs "content" (.arr []) with
        | .arr (b :: _) =>
            match b with
            | .obj bkvs =>
                (match pyGetD bkvs "text" (.str "") with
                 | .str s =>
                     match json_loads s with
                     | some v => .ok v
                     | none => .ok (.str s)
                 | j => .ok j)
            | _ => .error (.py .attrError)
        | _ => .ok result
    | _ => .ok result
  else .ok result

/-- Model of `_call_tool`: lazily `connect` when not initialized (ignoring its
boolean), send `tools/call`, then unwrap the MCP content-block
convention: a truthy dict result with a nonempty `content` list yields
its first block's `text`, opportunistically JSON-parsed with a
plain-string fallback; anything else is returned unchanged.  `t1`/`t2`
feed the conditional `connect`, `tt` the tool call itself. -/
def MemoRableClient.call_tool (c : MemoRableClient) (tool : String)
    (args : Json) (t1 t2 tt : Option HttpResponse) :
    MemoRableClient × List SentRequest × Except RpcErr Json :=
  let pre :=
    if c.initialized then (c, ([] : List SentRequest))
    else
      let cn := c.connect t1 t2
      (cn.1, cn.2.1)
  let step :=
    pre.1.mcp_request "tools/call" (some (toolCallParams tool args)) false tt
  let res : Except RpcErr Json :=
    match step.2.2 with
    | .error e => .error e
    | .ok result => unwrap_result result
  (step.1, pre.2 ++ [step.2.1], res)

/-- Model of `close`: the aiohttp session is closed, `_initialized` cleared and
the MCP session id dropped; the request counter is untouched. -/
def MemoRableClient.close (c : MemoRableClient) : MemoRableClient :=
  { c with initialized := false, mcpSessionId := none }

/-- The module-level singleton accessor `get_memorable_client`, with the
global `_client` slot passed and returned explicitly. -/
def get_memorable_client (g : Option MemoRableClient)
    (mcp_url entity device_id device_type : String) :
    MemoRableClient × Option MemoRableClient :=
  match g with
  | some c => (c, some c)
  | none =>
      let c := mkMemoRableClient mcp_url entity device_id device_type
      (c, some c)

/-! ## Auxiliary and specification-side definitions for the claims -/

/-- One transport exchange in a request trace: the arguments of a
`_mcp_request` invocation plus its transport outcome. -/
structure Call where
  method : String
  params : Option Json
  is_notif : Bool
  transport : Option HttpResponse

/-- Run a sequence of `_mcp_request` invocations, threading the client
state and collecting what was sent. -/
def runCalls (c : MemoRableClient) : List Call → MemoRableClient × List SentRequest
  | [] => (c, [])
  | k :: ks =>
      let step := c.mcp_request k.method k.params k.is_notif k.transport
      let rest := runCalls step.1 ks
      (rest.1, step.2.1 :: rest.2)

/-- Specification-side id assignment (from the claim's words): starting
after counter value `n`, a notification gets no id and consumes none, a
non-notification gets the next integer. -/
def specIds (n : Nat) : List Call → List (Option Nat)
  | [] => []
  | k :: ks =>
      if k.is_notif then none :: specIds n ks
      else some (n + 1) :: specIds (n + 1) ks

/-- Specification-side SSE semantics (from the claim's words): return
the `result` of — or fail with the `error` of — the first frame carrying
a `result` or `error` key; `null` when no such frame exists. -/
def sseFirst : List Json → Except RpcErr Json
  | [] => .ok .null
  | f :: fs =>
      match f with
      | .obj kvs =>
          if (kvs.lookup "result").isSome || (kvs.lookup "error").isSome then
            match kvs.lookup "result" with
            | some v => .ok v
            | none => .error (.mcpError ((kvs.lookup "error").getD .null))
          else sseFirst fs
      | _ => sseFirst fs

/-- The parse results of the `data: `-prefixed lines of an SSE body, in
order. -/
def framesOf (body : String) : List (Option Json) :=
  ((pySplitNl body).filter (fun l => pyStartsWith l "data: ")).map
    (fun l => json_loads (pyDrop l 6))

/-- A decoded JSON value is a document (an object). -/
def isObjDoc : Json → Bool
  | .obj _ => true
  | _ => false

/-- A tool result on which the content-block unwrap cannot hit the
`AttributeError` path: if it is a dict whose `content` is a nonempty
list, the first element is a dict. -/
def goodContentShape : Json → Bool
  | .obj kvs =>
      match pyGetD kvs "content" (.arr []) with
      | .arr (b :: _) => isObjDoc b
      | _ => true
  | _ => true

/-- A conforming SSE frame: an object whose `result` value, if any, has
a benign content shape (frames without `result`/`error` are skipped and
need no further shape). -/
def goodFrame (line : String) : Bool :=
  !pyStartsWith line "data: " ||
    (match json_loads (pyDrop line 6) with
     | some (.obj kvs) =>
         match kvs.lookup "result" with
         | some v => goodContentShape v
         | none => true
     | _ => false)

/-- A conforming plain-JSON document: an object; its `result` value must
have a benign content shape, and when it has neither `result` nor
`error` key the document itself is returned as the result and must have
one too. -/
def goodDoc : Json → Bool
  | .obj kvs =>
      match kvs.lookup "result" with
      | some v => goodContentShape v
      | none =>
          match kvs.lookup "error" with
          | some _ => true
          | none => goodContentShape (.obj kvs)
  | _ => false

/-- A protocol-conforming response to a `tools/call` request: either an
empty-body status, or an SSE stream of conforming frames, or a JSON body
holding a conforming document. -/
def conformingToolResponse (r : HttpResponse) : Bool :=
  r.status == 202 || r.status == 204 ||
    (if strContains r.contentType "text/event-stream" then
       (pySplitNl r.body).all goodFrame
     else
       isJsonContentType r.contentType &&
         (match json_loads r.body with
          | some d => goodDoc d
          | none => false))

/-! ## General lemmas about the embedded operations -/

theorem mcp_request_requestId (c : MemoRableClient) (m : String)
    (p : Option Json) (notif : Bool) (tr : Option HttpResponse) :
    (c.mcp_request m p notif tr).1.requestId =
      (if notif then c.requestId else c.requestId + 1) := by
  unfold MemoRableClient.mcp_request MemoRableClient.next_id
  cases tr with
  | none => cases notif <;> rfl
  | some r =>
      cases notif <;> dsimp only <;>
        (cases hh : r.sessionIdHeader <;> dsimp only <;> split_ifs <;> rfl)

theorem mcp_request_sent_id (c : MemoRableClient) (m : String)
    (p : Option Json) (notif : Bool) (tr : Option HttpResponse) :
    (c.mcp_request m p notif tr).2.1.id =
      (if notif then none else some (c.requestId + 1)) := by
  unfold MemoRableClient.mcp_request MemoRableClient.next_id
  cases tr with
  | none => cases notif <;> rfl
  | some r =>
      cases notif <;> dsimp only <;>
        (cases hh : r.sessionIdHeader <;> dsimp only <;> split_ifs <;> rfl)

theorem mcp_request_method (c : MemoRableClient) (m : String)
    (p : Option Json) (notif : Bool) (tr : Option HttpResponse) :
    (c.mcp_request m p notif tr).2.1.method = m := by
  unfold MemoRableClient.mcp_request MemoRableClient.next_id
  cases tr with
  | none => cases notif <;> rfl
  | some r =>
      cases notif <;> dsimp only <;>
        (cases hh : r.sessionIdHeader <;> dsimp only <;> split_ifs <;> rfl)

theorem mcp_request_initialized (c : MemoRableClient) (m : String)
    (p : Option Json) (notif : Bool) (tr : Option HttpResponse) :
    (c.mcp_request m p notif tr).1.initialized = c.initialized := by
  unfold MemoRableClient.mcp_request MemoRableClient.next_id
  cases tr with
  | none => cases notif <;> rfl
  | some r =>
      cases notif <;> dsimp only <;>
        (cases hh : r.sessionIdHeader <;> dsimp only <;> split_ifs <;> rfl)

/-- The session-id slot after a delivered response: a truthy header value
overwrites it, anything else leaves it alone.  The update does not depend
on the decode outcome (it happens before the body is read). -/
theorem mcp_request_sessionId (c : MemoRableClient) (m : String)
    (p : Option Json) (notif : Bool) (r : HttpResponse) :
    (c.mcp_request m p notif (some r)).1.mcpSessionId =
      (match r.sessionIdHeader with
       | some sid => if sid ≠ "" then some sid else c.mcpSessionId
       | none => c.mcpSessionId) := by
  unfold MemoRableClient.mcp_request MemoRableClient.next_id
  cases notif <;> dsimp only <;>
    (cases hh : r.sessionIdHeader <;> dsimp only <;> split_ifs <;> rfl)

/-- The request header sent with any call: the stored session id when it
is truthy. -/
theorem mcp_request_sessionHeader (c : MemoRableClient) (m : String)
    (p : Option Json) (notif : Bool) (tr : Option HttpResponse) :
    (c.mcp_request m p notif tr).2.1.sessionHeader =
      (match c.mcpSessionId with
       | some s => if s ≠ "" then some s else none
       | none => none) := by
  unfold MemoRableClient.mcp_request MemoRableClient.next_id
  cases tr with
  | none => cases notif <;> rfl
  | some r =>
      cases notif <;> dsimp only <;>
        (cases hh : r.sessionIdHeader <;> dsimp only <;> split_ifs <;> rfl)

/-- Outcome of a delivered non-notification exchange. -/
theorem mcp_request_out (c : MemoRableClient) (m : String)
    (p : Option Json) (r : HttpResponse) :
    (c.mcp_request m p false (some r)).2.2 =
      (if r.status == 202 || r.status == 204 then .ok .null
       else decode_body r) := by
  unfold MemoRableClient.mcp_request MemoRableClient.next_id
  dsimp only
  cases hh : r.sessionIdHeader <;> dsimp only <;> split_ifs <;>
    simp_all

theorem mcp_request_out_notif (c : MemoRableClient) (m : String)
    (p : Option Json) (r : HttpResponse) :
    (c.mcp_request m p true (some r)).2.2 = .ok .null := by
  unfold MemoRableClient.mcp_request MemoRableClient.next_id
  dsimp only
  cases hh : r.sessionIdHeader <;> dsimp only <;> split_ifs <;>
    first | rfl | simp_all

theorem mcp_request_out_netError (c : MemoRableClient) (m : String)
    (p : Option Json) (notif : Bool) :
    (c.mcp_request m p notif none).2.2 = .error .netError := by
  unfold MemoRableClient.mcp_request MemoRableClient.next_id
  cases notif <;> rfl

/-- The ids a request trace puts on the wire are exactly the
specification-side assignment. -/
theorem runCalls_ids (ks : List Call) :
    ∀ c : MemoRableClient,
      (runCalls c ks).2.map (fun r => r.id) = specIds c.requestId ks := by
  induction ks with
  | nil => intro c; rfl
  | cons k ks ih =>
      intro c
      simp only [runCalls, List.map_cons]
      rw [mcp_request_sent_id, ih, mcp_request_requestId]
      cases hk : k.is_notif <;> simp [specIds, hk]

/-- C5.  For every client instance, request ids start at 1 and increase
by exactly 1 per non-notification request in invocation order, a
notification never consumes an id, and `close()` leaves the counter
unchanged (only constructing a new client resets it to 0). -/
theorem c5_request_ids :
    (∀ (c : MemoRableClient) (ks : List Call),
        (runCalls c ks).2.map (fun r => r.id) = specIds c.requestId ks)
    ∧ (∀ u e d t : String, (mkMemoRableClient u e d t).requestId = 0)
    ∧ (∀ c : MemoRableClient, c.close.requestId = c.requestId) :=
  ⟨fun c ks => runCalls_ids ks c, fun _ _ _ _ => rfl, fun _ => rfl⟩

/-- C10.  Once the module-global slot holds a client, every further
`get_memorable_client` call returns that same instance and ignores all
four arguments; the first call constructs the singleton from its
arguments. -/
theorem c10_singleton :
    (∀ (c : MemoRableClient) (u e d t : String),
        get_memorable_client (some c) u e d t = (c, some c))
    ∧ (∀ u e d t u' e' d' t' : String,
        get_memorable_client (get_memorable_client none u e d t).2 u' e' d' t' =
          ((get_memorable_client none u e d t).1,
            (get_memorable_client none u e d t).2))
    ∧ (∀ u e d t : String,
        get_memorable_client none u e d t =
          (mkMemoRableClient u e d t, some (mkMemoRableClient u e d t))) :=
  ⟨fun _ _ _ _ _ => rfl, fun _ _ _ _ _ _ _ _ => rfl, fun _ _ _ _ => rfl⟩

/-- When a document (an object) has a `result` key, `extract_doc`
returns its value no matter what else the document contains. -/
theorem extract_doc_result (kvs : List (String × Json)) (v : Json)
    (fallback : Except RpcErr Json) (h : kvs.lookup "result" = some v) :
    extract_doc (.obj kvs) fallback = .ok v := by
  simp [extract_doc, pyContains, pyIndex, h]

/-- C2 (amended).  When a decoded response document contains both a
`result` and an `error` key, the RESULT takes precedence: `_mcp_request`
returns the `result` value and never looks at `error`, in both decoding
branches (the `result` check comes first in each).  The claim as frozen
says the opposite (error precedence); see the counterexample. -/
theorem c2_result_precedence :
    (∀ (kvs : List (String × Json)) (v : Json) (fallback : Except RpcErr Json),
        kvs.lookup "result" = some v →
          extract_doc (.obj kvs) fallback = .ok v)
    ∧ (∀ (line : String) (rest : List String) (kvs : List (String × Json)) (v : Json),
        pyStartsWith line "data: " = true →
          json_loads (pyDrop line 6) = some (.obj kvs) →
          kvs.lookup "result" = some v →
          sse_scan (line :: rest) = .ok v)
    ∧ (∀ (r : HttpResponse) (kvs : List (String × Json)) (v : Json),
        strContains r.contentType "text/event-stream" = false →
          isJsonContentType r.contentType = true →
          json_loads r.body = some (.obj kvs) →
          kvs.lookup "result" = some v →
          decode_body r = .ok v) := by
  refine ⟨fun kvs v fb h => extract_doc_result kvs v fb h, ?_, ?_⟩
  · intro line rest kvs v hpre hparse hres
    simp [sse_scan, hpre, hparse, extract_doc_result _ _ _ hres]
  · intro r kvs v hsse hct hparse hres
    simp [decode_body, hsse, hct, hparse, extract_doc_result _ _ _ hres]

/-- C2 witness: a document carrying both keys in each branch. -/
theorem c2_result_precedence_witness :
    extract_doc (.obj [("result", .num 1), ("error", .num 2)])
        (.error .netError) = .ok (.num 1)
    ∧ sse_scan ["data: \x7b\"result\": 1, \"error\": 2\x7d"] = .ok (.num 1)
    ∧ decode_body ⟨none, 200, "application/json",
        "\x7b\"result\": 1, \"error\": 2\x7d"⟩ = .ok (.num 1) :=
  ⟨c2_result_precedence.1 _ _ _ rfl,
   c2_result_precedence.2.1 _ [] _ _ rfl rfl rfl,
   c2_result_precedence.2.2 _ _ _ rfl rfl rfl rfl⟩

/-- C2 counterexample.  The claim as frozen: on a document with both
keys, `_mcp_request` "fails with the error payload instead of returning
the result".  The code returns the result: the full request pipeline on
a plain-JSON body holding both keys succeeds with the `result` value and
does not raise the `error` payload. -/
theorem c2_counterexample :
    ((mkMemoRableClient "u" "e" "d" "t").mcp_request "whats_relevant" none false
        (some ⟨none, 200, "application/json",
          "\x7b\"result\": 1, \"error\": 2\x7d"⟩)).2.2 = .ok (.num 1)
    ∧ ¬ ((mkMemoRableClient "u" "e" "d" "t").mcp_request "whats_relevant" none false
        (some ⟨none, 200, "application/json",
          "\x7b\"result\": 1, \"error\": 2\x7d"⟩)).2.2 =
          .error (.mcpError (.num 2)) :=
  ⟨rfl, fun h => nomatch h⟩

/-- C3 (amended).  `connect` swallows every exception into a boolean,
but the `Disconnected` guarantee only covers the `initialize` exchange:
an exception there leaves `_initialized` untouched and returns false,
while an exception when sending the `initialized` notification (a
network failure, the only way a notification can fail) returns false
with `_initialized` already set to true.  On full success it returns
true with the flag set. -/
theorem c3_connect_failure_states (c : MemoRableClient)
    (t1 t2 : Option HttpResponse) :
    ((c.mcp_request "initialize" (some (initializeParams c.entity))
          false t1).2.2.isOk = false →
        (c.connect t1 t2).1.initialized = c.initialized
        ∧ (c.connect t1 t2).2.2 = false)
    ∧ ((c.mcp_request "initialize" (some (initializeParams c.entity))
          false t1).2.2.isOk = true →
        (c.connect t1 t2).1.initialized = true
        ∧ ((c.connect t1 t2).2.2 = true ↔ t2.isSome = true)) := by
  constructor
  · intro hfail
    cases ho : (c.mcp_request "initialize" (some (initializeParams c.entity))
        false t1).2.2 with
    | ok v => rw [ho] at hfail; simp [Except.isOk, Except.toBool] at hfail
    | error e =>
        constructor
        · simp only [MemoRableClient.connect, ho]
          exact mcp_request_initialized ..
        · simp only [MemoRableClient.connect, ho]
  · intro hok
    cases ho : (c.mcp_request "initialize" (some (initializeParams c.entity))
        false t1).2.2 with
    | error e => rw [ho] at hok; simp [Except.isOk, Except.toBool] at hok
    | ok v =>
        cases t2 with
        | none =>
            constructor
            · simp only [MemoRableClient.connect, ho, mcp_request_out_netError]
              exact mcp_request_initialized ..
            · simp only [MemoRableClient.connect, ho, mcp_request_out_netError]
              simp
        | some r2 =>
            constructor
            · simp only [MemoRableClient.connect, ho, mcp_request_out_notif]
              exact mcp_request_initialized ..
            · simp only [MemoRableClient.connect, ho, mcp_request_out_notif]
              simp

/-- C3 witness: instantiating both directions — a network failure on
`initialize` (flag stays false, returns false), and a clean two-step
handshake (flag true, returns true). -/
theorem c3_connect_failure_states_witness :
    ((mkMemoRableClient "u" "e" "d" "t").connect none none).1.initialized = false
    ∧ ((mkMemoRableClient "u" "e" "d" "t").connect none none).2.2 = false
    ∧ ((mkMemoRableClient "u" "e" "d" "t").connect
        (some ⟨none, 200, "application/json", "\x7b\"result\": \x7b\x7d\x7d"⟩)
        (some ⟨none, 202, "", ""⟩)).1.initialized = true
    ∧ ((mkMemoRableClient "u" "e" "d" "t").connect
        (some ⟨none, 200, "application/json", "\x7b\"result\": \x7b\x7d\x7d"⟩)
        (some ⟨none, 202, "", ""⟩)).2.2 = true := by
  refine ⟨?_, ?_, ?_, ?_⟩
  · exact ((c3_connect_failure_states (mkMemoRableClient "u" "e" "d" "t")
      none none).1 rfl).1
  · exact ((c3_connect_failure_states (mkMemoRableClient "u" "e" "d" "t")
      none none).1 rfl).2
  · exact ((c3_connect_failure_states (mkMemoRableClient "u" "e" "d" "t")
      (some ⟨none, 200, "application/json", "\x7b\"result\": \x7b\x7d\x7d"⟩)
      (some ⟨none, 202, "", ""⟩)).2 rfl).1
  · exact (((c3_connect_failure_states (mkMemoRableClient "u" "e" "d" "t")
      (some ⟨none, 200, "application/json", "\x7b\"result\": \x7b\x7d\x7d"⟩)
      (some ⟨none, 202, "", ""⟩)).2 rfl).2).mpr rfl

/-- C3 counterexample.  The claim as frozen says any exception during
the initialize request *or the subsequent initialized notification*
leaves the initialized flag false.  Concretely: `initialize` succeeds
and the notification hits a network error — `connect` returns false yet
the flag is true (the `except` block never rolls it back). -/
theorem c3_counterexample :
    ((mkMemoRableClient "u" "e" "d" "t").connect
        (some ⟨none, 200, "application/json", "\x7b\"result\": \x7b\x7d\x7d"⟩)
        none).1.initialized = true
    ∧ ((mkMemoRableClient "u" "e" "d" "t").connect
        (some ⟨none, 200, "application/json", "\x7b\"result\": \x7b\x7d\x7d"⟩)
        none).2.2 = false :=
  ⟨rfl, rfl⟩

/-- C4 (amended).  The idempotent lazy-connect guard lives in
`_call_tool`, not in `connect`: when the client is already initialized,
`_call_tool` invokes no `connect` and sends exactly one request, the
`tools/call` itself — no second `initialize` goes out.  (`connect`
itself is unguarded; see the counterexample.) -/
theorem c4_call_tool_guard (c : MemoRableClient) (tool : String)
    (args : Json) (t1 t2 tt : Option HttpResponse)
    (h : c.initialized = true) :
    (c.call_tool tool args t1 t2 tt).2.1.map (fun r => r.method) =
      ["tools/call"] := by
  simp only [MemoRableClient.call_tool, h, if_true, List.nil_append,
    List.map_cons, List.map_nil]
  rw [mcp_request_method]

/-- C4 witness. -/
theorem c4_call_tool_guard_witness :
    ((({ mkMemoRableClient "u" "e" "d" "t" with
          initialized := true } : MemoRableClient)).call_tool
        "get_status" (.obj []) none none
        (some ⟨none, 200, "application/json", "\x7b\"result\": 1\x7d"⟩)).2.1.map
      (fun r => r.method) = ["tools/call"] :=
  c4_call_tool_guard
    ({ mkMemoRableClient "u" "e" "d" "t" with initialized := true } : MemoRableClient)
    "get_status" (.obj []) none none
    (some ⟨none, 200, "application/json", "\x7b\"result\": 1\x7d"⟩) rfl

/-- C4 counterexample.  The claim as frozen maps `ensureConnected` onto
`connect` and asserts that calling it on an already-Ready client is a
no-op sending no `initialize` request.  In fact `connect` has no guard:
on a client with `_initialized = True` it still sends `initialize`
followed by the `initialized` notification. -/
theorem c4_counterexample :
    ((({ mkMemoRableClient "u" "e" "d" "t" with
          initialized := true } : MemoRableClient)).connect
        (some ⟨none, 200, "application/json", "\x7b\"result\": 1\x7d"⟩)
        (some ⟨none, 202, "", ""⟩)).2.1.map (fun r => r.method) =
      ["initialize", "notifications/initialized"] :=
  rfl

/-- C6 (amended).  After any delivered response whose `Mcp-Session-Id`
header is present *and non-empty*, the value is stored (overwriting any
previous one) regardless of status code or body — the capture happens
before any decoding, so it applies to error responses and undecodable
bodies alike — and it is attached as the `Mcp-Session-Id` request header
of the very next request.  (A present-but-empty header value is ignored
by the `if sid:` truthiness test; see the counterexample.) -/
theorem c6_session_id_propagation (c : MemoRableClient) (m : String)
    (p : Option Json) (notif : Bool) (r : HttpResponse) (sid : String)
    (hh : r.sessionIdHeader = some sid) (hne : sid ≠ "") :
    (c.mcp_request m p notif (some r)).1.mcpSessionId = some sid
    ∧ ∀ (m' : String) (p' : Option Json) (notif' : Bool)
        (tr' : Option HttpResponse),
        ((c.mcp_request m p notif (some r)).1.mcp_request
            m' p' notif' tr').2.1.sessionHeader = some sid := by
  have hstore : (c.mcp_request m p notif (some r)).1.mcpSessionId = some sid := by
    rw [mcp_request_sessionId, hh]
    simp [hne]
  refine ⟨hstore, fun m' p' notif' tr' => ?_⟩
  rw [mcp_request_sessionHeader, hstore]
  simp [hne]

/-- C6 witness: a 500 error response with an unparseable body still gets
its session id stored and echoed on the next request. -/
theorem c6_session_id_propagation_witness :
    ((mkMemoRableClient "u" "e" "d" "t").mcp_request "initialize" none false
        (some ⟨some "sess-1", 500, "application/json", "not json"⟩)).1.mcpSessionId
      = some "sess-1"
    ∧ (((mkMemoRableClient "u" "e" "d" "t").mcp_request "initialize" none false
        (some ⟨some "sess-1", 500, "application/json", "not json"⟩)).1.mcp_request
          "tools/call" none false none).2.1.sessionHeader = some "sess-1" :=
  ⟨(c6_session_id_propagation _ "initialize" none false _ "sess-1" rfl
      (by decide)).1,
   (c6_session_id_propagation _ "initialize" none false _ "sess-1" rfl
      (by decide)).2 "tools/call" none false none⟩

/-- C6 counterexample.  The claim as frozen: a present session-id header
is always stored, overwriting any previous value.  A header that is
present with the empty-string value is dropped by the truthiness test,
and the previous value survives. -/
theorem c6_counterexample :
    ((({ mkMemoRableClient "u" "e" "d" "t" with
          mcpSessionId := some "old" } : MemoRableClient)).mcp_request
        "tools/call" none false
        (some ⟨some "", 200, "application/json", "\x7b\"result\": 1\x7d"⟩)).1.mcpSessionId
      = some "old" :=
  rfl

/-- A tool result on which `_call_tool`'s unwrap engages: a truthy dict
whose `content` value is a nonempty list. -/
def unwrappable (res : Json) : Bool :=
  pyTruthy res &&
    match res with
    | .obj kvs =>
        (match pyGetD kvs "content" (.arr []) with
         | .arr (_ :: _) => true
         | _ => false)
    | _ => false

/-- The whole of `_call_tool`'s result handling: the decode outcome is
passed through `unwrap_result` on success and re-raised on failure. -/
theorem call_tool_out (c : MemoRableClient) (tool : String) (args : Json)
    (t1 t2 tt : Option HttpResponse) :
    (c.call_tool tool args t1 t2 tt).2.2 =
      (match ((if c.initialized then c else (c.connect t1 t2).1).mcp_request
          "tools/call" (some (toolCallParams tool args)) false tt).2.2 with
       | .ok res => unwrap_result res
       | .error e => .error e) := by
  unfold MemoRableClient.call_tool
  by_cases h : c.initialized
  · simp only [h, if_true]
    cases (c.mcp_request "tools/call" (some (toolCallParams tool args))
        false tt).2.2 <;> rfl
  · have h' : c.initialized = false := by simpa using h
    simp only [h', Bool.false_eq_true, if_false]
    cases ((c.connect t1 t2).1.mcp_request "tools/call"
        (some (toolCallParams tool args)) false tt).2.2 <;> rfl

/-- C8.  The content-block unwrap of `_call_tool`: (i) a result that is
not a truthy dict carrying a nonempty `content` list is returned
unchanged; (ii) when the first content block is a dict whose `text`
field is a string, that string is JSON-parsed opportunistically and
returned as a plain string on parse failure — never raising; (iii) the
whole of `_call_tool`'s result handling is exactly this unwrap applied
to the decode outcome. -/
theorem c8_unwrap_conventions :
    (∀ res : Json, unwrappable res = false → unwrap_result res = .ok res)
    ∧ (∀ (kvs bkvs : List (String × Json)) (bs : List Json) (s : String),
        pyGetD kvs "content" (.arr []) = .arr (.obj bkvs :: bs) →
        pyGetD bkvs "text" (.str "") = .str s →
        unwrap_result (.obj kvs) = .ok ((json_loads s).getD (.str s)))
    ∧ (∀ (c : MemoRableClient) (tool : String) (args : Json)
        (t1 t2 tt : Option HttpResponse),
        (c.call_tool tool args t1 t2 tt).2.2 =
          (match ((if c.initialized then c else (c.connect t1 t2).1).mcp_request
              "tools/call" (some (toolCallParams tool args)) false tt).2.2 with
           | .ok res => unwrap_result res
           | .error e => .error e)) := by
  refine ⟨?_, ?_, fun c tool args t1 t2 tt => call_tool_out c tool args t1 t2 tt⟩
  · intro res h
    by_cases ht : pyTruthy res = true
    · cases res with
      | obj kvs =>
          unfold unwrappable at h
          simp only [ht, Bool.true_and] at h
          simp only [unwrap_result, ht, if_true]
          cases hc : pyGetD kvs "content" (.arr []) with
          | arr xs =>
              cases xs with
              | nil => simp [hc]
              | cons b bs => simp [hc] at h
          | null => simp [hc]
          | bool b => simp [hc]
          | num n => simp [hc]
          | str s => simp [hc]
          | obj o => simp [hc]
      | null => simp [unwrap_result, ht]
      | bool b => simp [unwrap_result, ht]
      | num n => simp [unwrap_result, ht]
      | str s => simp [unwrap_result, ht]
      | arr xs => simp [unwrap_result, ht]
    · simp only [Bool.not_eq_true] at ht
      simp [unwrap_result, ht]
  · intro kvs bkvs bs s hcontent htext
    have hk : kvs.lookup "content" = some (.arr (.obj bkvs :: bs)) := by
      unfold pyGetD at hcontent
      cases hl : kvs.lookup "content" with
      | none => rw [hl] at hcontent; simp at hcontent
      | some v => rw [hl] at hcontent; simpa using hcontent
    have hne : kvs ≠ [] := by
      intro he
      rw [he] at hk
      simp [List.lookup] at hk
    have ht : pyTruthy (.obj kvs) = true := by
      simp [pyTruthy, List.isEmpty_eq_true, hne]
    simp only [unwrap_result, ht, if_true]
    simp only [hcontent, htext]
    cases hj : json_loads s <;> simp [hj]

/-- C8 witness: a bare scalar result passes through unchanged; the §8
example — content text `"not json"` — degrades to the literal string;
and the pipeline equation at a ready client. -/
theorem c8_unwrap_conventions_witness :
    unwrap_result (.num 7) = .ok (.num 7)
    ∧ unwrap_result
        (.obj [("content", .arr [.obj [("text", .str "not json")]])]) =
        .ok (.str "not json")
    ∧ ((({ mkMemoRableClient "u" "e" "d" "t" with
          initialized := true } : MemoRableClient)).call_tool "recall" (.obj [])
        none none (some ⟨none, 200, "application/json",
          "\x7b\"result\": 1\x7d"⟩)).2.2 =
        (match ((({ mkMemoRableClient "u" "e" "d" "t" with
            initialized := true } : MemoRableClient)).mcp_request
            "tools/call" (some (toolCallParams "recall" (.obj []))) false
            (some ⟨none, 200, "application/json",
              "\x7b\"result\": 1\x7d"⟩)).2.2 with
         | .ok res => unwrap_result res
         | .error e => .error e) := by
  refine ⟨c8_unwrap_conventions.1 (.num 7) rfl, ?_, ?_⟩
  · have h := c8_unwrap_conventions.2.1
      [("content", .arr [.obj [("text", .str "not json")]])]
      [("text", .str "not json")] [] "not json" rfl rfl
    rw [h]
    rfl
  · have h := c8_unwrap_conventions.2.2
      ({ mkMemoRableClient "u" "e" "d" "t" with initialized := true } : MemoRableClient)
      "recall" (.obj []) none none
      (some ⟨none, 200, "application/json", "\x7b\"result\": 1\x7d"⟩)
    simpa using h

/-- The SSE loop refines the claim-level description: on a line list
whose `data: ` frames all parse to objects, `sse_scan` computes
`sseFirst` of the frame sequence. -/
theorem sse_scan_refines (lines : List String) :
    ∀ frames : List Json,
      (lines.filter (fun l => pyStartsWith l "data: ")).map
          (fun l => json_loads (pyDrop l 6)) = frames.map some →
      (∀ f ∈ frames, isObjDoc f = true) →
      sse_scan lines = sseFirst frames := by
  induction lines with
  | nil =>
      intro frames hf _
      cases frames with
      | nil => rfl
      | cons f fs => simp at hf
  | cons line rest ih =>
      intro frames hf hobj
      by_cases hd : pyStartsWith line "data: " = true
      · simp only [List.filter_cons, hd, if_true, List.map_cons] at hf
        cases frames with
        | nil => simp at hf
        | cons f fs =>
            simp only [List.map_cons, List.cons.injEq] at hf
            obtain ⟨hparse, htail⟩ := hf
            have hfobj := hobj f (List.mem_cons_self f fs)
            cases f with
            | obj kvs =>
                simp only [sse_scan, hd, if_true, hparse]
                cases hres : kvs.lookup "result" with
                | some v =>
                    simp [extract_doc, pyContains, pyIndex, hres, sseFirst]
                | none =>
                    cases herr : kvs.lookup "error" with
                    | some e =>
                        simp [extract_doc, pyContains, pyIndex, hres, herr,
                          sseFirst]
                    | none =>
                        simp only [extract_doc, pyContains, pyIndex, hres, herr,
                          Option.isSome_none, sseFirst, Option.isSome_some,
                          Bool.or_self, Bool.false_eq_true, if_false]
                        exact ih fs htail
                          (fun g hg => hobj g (List.mem_cons_of_mem _ hg))
            | null => simp [isObjDoc] at hfobj
            | bool b => simp [isObjDoc] at hfobj
            | num n => simp [isObjDoc] at hfobj
            | str s => simp [isObjDoc] at hfobj
            | arr xs => simp [isObjDoc] at hfobj
      · have hd' : pyStartsWith line "data: " = false := by simpa using hd
        simp only [List.filter_cons, hd', Bool.false_eq_true, if_false] at hf
        simp only [sse_scan, hd', Bool.false_eq_true, if_false]
        exact ih frames hf hobj

/-- C7.  With a `text/event-stream` content type, `_mcp_request` scans
the body line by line and (i) returns the `result` of — or raises the
`error` of — the first `data: `-prefixed frame carrying a `result` or
`error` key, returning `None` when no such frame exists (stated as a
refinement of the claim-level `sseFirst` over the parsed frames);
(ii) the SSE branch is selected exactly when the content type contains
`text/event-stream`; (iii) concretely, the body
`"data: {\x22result\x22: 42}\n\n"` yields `42`. -/
theorem c7_sse_decoding :
    (∀ (body : String) (frames : List Json),
        framesOf body = frames.map some →
        (∀ f ∈ frames, isObjDoc f = true) →
        sse_scan (pySplitNl body) = sseFirst frames)
    ∧ (∀ r : HttpResponse,
        strContains r.contentType "text/event-stream" = true →
        decode_body r = sse_scan (pySplitNl r.body))
    ∧ (∀ (c : MemoRableClient) (m : String) (p : Option Json),
        (c.mcp_request m p false (some ⟨none, 200, "text/event-stream",
            "data: \x7b\"result\": 42\x7d\n\n"⟩)).2.2 = .ok (.num 42)) := by
  refine ⟨?_, ?_, ?_⟩
  · intro body frames hf hobj
    exact sse_scan_refines (pySplitNl body) frames hf hobj
  · intro r h
    simp [decode_body, h]
  · intro c m p
    rfl

/-- C7 witness: the concrete SSE body, with its frame list made
explicit. -/
theorem c7_sse_decoding_witness :
    sse_scan (pySplitNl "data: \x7b\"result\": 42\x7d\n\n") =
      sseFirst [.obj [("result", .num 42)]]
    ∧ decode_body ⟨none, 200, "text/event-stream",
        "data: \x7b\"result\": 42\x7d\n\n"⟩ =
        sse_scan (pySplitNl "data: \x7b\"result\": 42\x7d\n\n")
    ∧ ((mkMemoRableClient "u" "e" "d" "t").mcp_request "whats_relevant" none
        false (some ⟨none, 200, "text/event-stream",
          "data: \x7b\"result\": 42\x7d\n\n"⟩)).2.2 = .ok (.num 42) :=
  ⟨c7_sse_decoding.1 "data: \x7b\"result\": 42\x7d\n\n"
      [.obj [("result", .num 42)]] rfl
      (fun f hf => by
        simp only [List.mem_singleton] at hf
        subst hf
        rfl),
   c7_sse_decoding.2.1 ⟨none, 200, "text/event-stream",
      "data: \x7b\"result\": 42\x7d\n\n"⟩ rfl,
   c7_sse_decoding.2.2 (mkMemoRableClient "u" "e" "d" "t") "whats_relevant" none⟩

/-- On a result of benign content shape, the unwrap cannot raise: it
always produces some value. -/
theorem unwrap_result_total (v : Json) (h : goodContentShape v = true) :
    ∃ w, unwrap_result v = .ok w := by
  cases v with
  | obj kvs =>
      by_cases ht : pyTruthy (Json.obj kvs) = true
      · unfold goodContentShape at h
        cases hc : pyGetD kvs "content" (.arr []) with
        | arr xs =>
            cases xs with
            | nil => exact ⟨.obj kvs, by simp [unwrap_result, ht, hc]⟩
            | cons b bs =>
                simp only [hc] at h
                cases b with
                | obj bkvs =>
                    cases htext : pyGetD bkvs "text" (.str "") with
                    | str s =>
                        cases hj : json_loads s with
                        | some w =>
                            exact ⟨w, by simp [unwrap_result, ht, hc, htext, hj]⟩
                        | none =>
                            exact ⟨.str s,
                              by simp [unwrap_result, ht, hc, htext, hj]⟩
                    | null => exact ⟨.null, by simp [unwrap_result, ht, hc, htext]⟩
                    | bool b => exact ⟨.bool b, by simp [unwrap_result, ht, hc, htext]⟩
                    | num n => exact ⟨.num n, by simp [unwrap_result, ht, hc, htext]⟩
                    | arr ys => exact ⟨.arr ys, by simp [unwrap_result, ht, hc, htext]⟩
                    | obj o => exact ⟨.obj o, by simp [unwrap_result, ht, hc, htext]⟩
                | null => simp [isObjDoc] at h
                | bool b => simp [isObjDoc] at h
                | num n => simp [isObjDoc] at h
                | str s => simp [isObjDoc] at h
                | arr ys => simp [isObjDoc] at h
        | null => exact ⟨.obj kvs, by simp [unwrap_result, ht, hc]⟩
        | bool b => exact ⟨.obj kvs, by simp [unwrap_result, ht, hc]⟩
        | num n => exact ⟨.obj kvs, by simp [unwrap_result, ht, hc]⟩
        | str s => exact ⟨.obj kvs, by simp [unwrap_result, ht, hc]⟩
        | obj o => exact ⟨.obj kvs, by simp [unwrap_result, ht, hc]⟩
      · have ht' : pyTruthy (Json.obj kvs) = false := by simpa using ht
        exact ⟨.obj kvs, by simp [unwrap_result, ht']⟩
  | null => exact ⟨.null, rfl⟩
  | bool b => exact ⟨.bool b, by cases b <;> rfl⟩
  | num n => exact ⟨.num n, by by_cases hn : (n != 0) = true <;>
      simp [unwrap_result, pyTruthy, hn]⟩
  | str s => exact ⟨.str s, by by_cases hs : (s != "") = true <;>
      simp [unwrap_result, pyTruthy, hs]⟩
  | arr xs => exact ⟨.arr xs, by by_cases hx : xs.isEmpty = true <;>
      simp [unwrap_result, pyTruthy, hx]⟩

/-- On a conforming plain-JSON document, the shared extraction yields a
benign-shaped value or a remote error. -/
theorem extract_doc_good (data : Json) (h : goodDoc data = true) :
    (∃ v, extract_doc data (.ok data) = .ok v ∧ goodContentShape v = true)
    ∨ (∃ e, extract_doc data (.ok data) = .error (.mcpError e)) := by
  cases data with
  | obj kvs =>
      unfold goodDoc at h
      cases hres : kvs.lookup "result" with
      | some v =>
          simp only [hres] at h
          exact Or.inl ⟨v, by simp [extract_doc, pyContains, pyIndex, hres], h⟩
      | none =>
          simp only [hres] at h
          cases herr : kvs.lookup "error" with
          | some e =>
              exact Or.inr ⟨e,
                by simp [extract_doc, pyContains, pyIndex, hres, herr]⟩
          | none =>
              simp only [herr] at h
              exact Or.inl ⟨.obj kvs,
                by simp [extract_doc, pyContains, pyIndex, hres, herr], h⟩
  | null => simp [goodDoc] at h
  | bool b => simp [goodDoc] at h
  | num n => simp [goodDoc] at h
  | str s => simp [goodDoc] at h
  | arr xs => simp [goodDoc] at h

/-- On a stream whose frames all conform, the SSE scan yields a
benign-shaped value (possibly `None`) or a remote error. -/
theorem sse_scan_good (lines : List String) (h : lines.all goodFrame = true) :
    (∃ v, sse_scan lines = .ok v ∧ goodContentShape v = true)
    ∨ (∃ e, sse_scan lines = .error (.mcpError e)) := by
  induction lines with
  | nil => exact Or.inl ⟨.null, rfl, rfl⟩
  | cons line rest ih =>
      simp only [List.all_cons, Bool.and_eq_true] at h
      obtain ⟨hline, hrest⟩ := h
      by_cases hd : pyStartsWith line "data: " = true
      · unfold goodFrame at hline
        simp only [hd, Bool.not_true, Bool.false_or] at hline
        cases hp : json_loads (pyDrop line 6) with
        | none => simp only [hp] at hline; exact absurd hline (by simp)
        | some d =>
            simp only [hp] at hline
            cases d with
            | obj kvs =>
                simp only [sse_scan, hd, if_true, hp]
                cases hres : kvs.lookup "result" with
                | some v =>
                    simp only [hres] at hline
                    exact Or.inl ⟨v,
                      by simp [extract_doc, pyContains, pyIndex, hres], hline⟩
                | none =>
                    cases herr : kvs.lookup "error" with
                    | some e =>
                        exact Or.inr ⟨e,
                          by simp [extract_doc, pyContains, pyIndex, hres, herr]⟩
                    | none =>
                        have hfall := ih hrest
                        simpa [extract_doc, pyContains, pyIndex, hres, herr]
                          using hfall
            | null => simp at hline
            | bool b => simp at hline
            | num n => simp at hline
            | str s => simp at hline
            | arr xs => simp at hline
      · have hd' : pyStartsWith line "data: " = false := by simpa using hd
        simp only [sse_scan, hd', Bool.false_eq_true, if_false]
        exact ih hrest

/-- C1.  Against a delivered, protocol-conforming response, `_call_tool`
has exactly two outcomes: it returns a normalized value, or it raises
the remote `error` payload (the `Exception(f"MCP error: ...")` carrying
it, modelled as `RpcErr.mcpError`) — never both (the second conjunct),
never neither, and nothing else. -/
theorem c1_call_tool_outcomes (c : MemoRableClient) (tool : String)
    (args : Json) (t1 t2 : Option HttpResponse) (r : HttpResponse)
    (hr : conformingToolResponse r = true) :
    ((∃ v, (c.call_tool tool args t1 t2 (some r)).2.2 = .ok v)
      ∨ (∃ e, (c.call_tool tool args t1 t2 (some r)).2.2 =
          .error (.mcpError e)))
    ∧ ∀ v e : Json,
        ¬((c.call_tool tool args t1 t2 (some r)).2.2 = .ok v
          ∧ (c.call_tool tool args t1 t2 (some r)).2.2 =
              .error (.mcpError e)) := by
  constructor
  · rw [call_tool_out, mcp_request_out]
    by_cases hst : (r.status == 202 || r.status == 204) = true
    · rw [if_pos hst]
      exact Or.inl ⟨.null, rfl⟩
    · rw [if_neg hst]
      unfold conformingToolResponse at hr
      simp only [Bool.or_eq_true, not_or] at hst
      obtain ⟨h202, h204⟩ := hst
      simp only [Bool.or_eq_true] at hr
      rcases hr with (h | h) | h
      · exact absurd h h202
      · exact absurd h h204
      · by_cases hsse : strContains r.contentType "text/event-stream" = true
        · rw [if_pos hsse] at h
          have hdec : decode_body r = sse_scan (pySplitNl r.body) := by
            simp [decode_body, hsse]
          rw [hdec]
          rcases sse_scan_good _ h with ⟨v, hv, hgood⟩ | ⟨e, he⟩
          · obtain ⟨w, hw⟩ := unwrap_result_total v hgood
            exact Or.inl ⟨w, by rw [hv]; exact hw⟩
          · exact Or.inr ⟨e, by rw [he]⟩
        · have hsse' : strContains r.contentType "text/event-stream" = false := by
            simpa using hsse
          rw [if_neg hsse] at h
          simp only [Bool.and_eq_true] at h
          obtain ⟨hct, hdoc⟩ := h
          cases hp : json_loads r.body with
          | none => rw [hp] at hdoc; exact absurd hdoc (by simp)
          | some d =>
              rw [hp] at hdoc
              have hdec : decode_body r = extract_doc d (.ok d) := by
                simp [decode_body, hsse', hct, hp]
              rw [hdec]
              rcases extract_doc_good d hdoc with ⟨v, hv, hgood⟩ | ⟨e, he⟩
              · obtain ⟨w, hw⟩ := unwrap_result_total v hgood
                exact Or.inl ⟨w, by rw [hv]; exact hw⟩
              · exact Or.inr ⟨e, by rw [he]⟩
  · intro v e he
    obtain ⟨h1, h2⟩ := he
    rw [h1] at h2
    exact absurd h2 (by simp)

/-- C1 witness: a conforming wrapped-text tool response on a fresh
client (the lazy connect both failing and succeeding is covered by the
theorem's generality; here both its transports are network failures). -/
theorem c1_call_tool_outcomes_witness :
    conformingToolResponse ⟨none, 200, "application/json",
        "\x7b\"result\": \x7b\"content\": [\x7b\"text\": \"not json\"\x7d]\x7d\x7d"⟩
      = true
    ∧ ((∃ v, ((mkMemoRableClient "u" "e" "d" "t").call_tool "recall" (.obj [])
          none none (some ⟨none, 200, "application/json",
            "\x7b\"result\": \x7b\"content\": [\x7b\"text\": \"not json\"\x7d]\x7d\x7d"⟩)).2.2
          = .ok v)
        ∨ (∃ e, ((mkMemoRableClient "u" "e" "d" "t").call_tool "recall" (.obj [])
          none none (some ⟨none, 200, "application/json",
            "\x7b\"result\": \x7b\"content\": [\x7b\"text\": \"not json\"\x7d]\x7d\x7d"⟩)).2.2
          = .error (.mcpError e))) :=
  ⟨rfl,
   (c1_call_tool_outcomes (mkMemoRableClient "u" "e" "d" "t") "recall" (.obj [])
      none none ⟨none, 200, "application/json",
        "\x7b\"result\": \x7b\"content\": [\x7b\"text\": \"not json\"\x7d]\x7d\x7d"⟩
      rfl).1⟩

/-- On a `'Z'`-free list, `replaceZ` touches nothing. -/
theorem replaceZ_of_not_mem (l : List Char) (h : 'Z' ∉ l) :
    replaceZ l = l := by
  induction l with
  | nil => rfl
  | cons c cs ih =>
      simp only [List.mem_cons, not_or] at h
      obtain ⟨hc, hcs⟩ := h
      simp only [replaceZ]
      rw [if_neg (fun he => hc he.symm)]
      rw [ih hcs]

/-- A single trailing `'Z'` becomes the six characters `+00:00`. -/
theorem replaceZ_trailing (pre : List Char) (h : 'Z' ∉ pre) :
    replaceZ (pre ++ ['Z']) = pre ++ "+00:00".data := by
  induction pre with
  | nil => rfl
  | cons c cs ih =>
      simp only [List.mem_cons, not_or] at h
      obtain ⟨hc, hcs⟩ := h
      simp only [List.cons_append, replaceZ]
      rw [if_neg (fun he => hc he.symm)]
      simp only [List.append_eq]
      rw [ih hcs]

/-- C9.  `Memory.from_dict` timestamp normalization: (i) the map
`{"content": "hi", "timestamp": "2024-01-01T00:00:00Z"}` normalizes to a
Memory whose timestamp is `2024-01-01T00:00:00+00:00` (offset zero) and
whose salience defaults to `50`; (ii) a trailing `Z` in a timestamp
string is parsed exactly as the UTC offset `+00:00`; (iii) when neither
`timestamp` nor `createdAt` is present, the timestamp defaults to the
wall clock `now` at normalization time (for any `now` the parser can
round-trip through `datetime.now().isoformat()`). -/
theorem c9_memory_normalization :
    (∀ now : PyDateTime, ∃ m : Memory,
        Memory.from_dict now
            [("content", .str "hi"), ("timestamp", .str "2024-01-01T00:00:00Z")]
          = .ok m
        ∧ m.timestamp = .dt ⟨2024, 1, 1, 0, 0, 0, 0, some 0⟩
        ∧ m.salience = .num 50
        ∧ m.content = .str "hi")
    ∧ (∀ pre : List Char, 'Z' ∉ pre →
        parse_ts ⟨pre ++ ['Z']⟩ = fromisoformat ⟨pre ++ "+00:00".data⟩)
    ∧ (∀ (data : List (String × Json)) (now : PyDateTime),
        data.lookup "timestamp" = none →
        data.lookup "createdAt" = none →
        parse_ts now.isoformat = some now →
        ∃ m : Memory,
          Memory.from_dict now data = .ok m ∧ m.timestamp = .dt now) := by
  refine ⟨?_, ?_, ?_⟩
  · intro now
    exact ⟨{ id := .str "", content := .str "hi", salience := .num 50,
             timestamp := .dt ⟨2024, 1, 1, 0, 0, 0, 0, some 0⟩,
             entity := .null, context := .obj [] }, rfl, rfl, rfl, rfl⟩
  · intro pre h
    unfold parse_ts
    rw [show (String.mk (pre ++ ['Z'])).data = pre ++ ['Z'] from rfl]
    rw [replaceZ_trailing pre h]
  · intro data now hts hca hrt
    have hval : pyGetD data "timestamp"
        (pyGetD data "createdAt" (.str now.isoformat)) = .str now.isoformat := by
      simp [pyGetD, hts, hca]
    simp only [Memory.from_dict, hval, hrt]
    exact ⟨_, rfl, rfl⟩

/-- C9 witness: each clause at a concrete instance (the example map; the
prefix `2024-01-01T00:00:00`; an absent-timestamp map at a concrete
wall-clock instant). -/
theorem c9_memory_normalization_witness :
    (∃ m : Memory,
        Memory.from_dict ⟨2030, 1, 2, 3, 4, 5, 6, none⟩
            [("content", .str "hi"), ("timestamp", .str "2024-01-01T00:00:00Z")]
          = .ok m
        ∧ m.timestamp = .dt ⟨2024, 1, 1, 0, 0, 0, 0, some 0⟩
        ∧ m.salience = .num 50
        ∧ m.content = .str "hi")
    ∧ parse_ts ⟨"2024-01-01T00:00:00".data ++ ['Z']⟩ =
        fromisoformat ⟨"2024-01-01T00:00:00".data ++ "+00:00".data⟩
    ∧ (∃ m : Memory,
        Memory.from_dict ⟨2030, 1, 2, 3, 4, 5, 6, none⟩ [("content", .str "x")]
          = .ok m
        ∧ m.timestamp = .dt ⟨2030, 1, 2, 3, 4, 5, 6, none⟩) :=
  ⟨c9_memory_normalization.1 ⟨2030, 1, 2, 3, 4, 5, 6, none⟩,
   c9_memory_normalization.2.1 "2024-01-01T00:00:00".data (by decide),
   c9_memory_normalization.2.2 [("content", .str "x")]
     ⟨2030, 1, 2, 3, 4, 5, 6, none⟩ rfl rfl rfl⟩
